import Mathlib

/-!
Verification development for the TWT jetting-grid firmware
(src/src_mcu/src/main.cpp, with the ProgramStore header in
src/source_mcu/src/ProtocolManager.h).

The definitions below are a shallow embedding of the firmware code.
Collaborator classes whose implementation is not part of this repository
snapshot (the FiniteStateMachine driver, CentipedeManager, the
ProtocolManager method bodies, the point codec in translations.h) are
modelled from the specification, and each such definition says so in its
doc comment.
-/

namespace JettingGrid

/-- The point type `P` of ProtocolManager.h: a PCS coordinate with
`int8_t` fields, embedded as integers. -/
structure P where
  x : Int
  y : Int
deriving DecidableEq, Repr

/-- Special value denoting an uninitialized point (ProtocolManager.h). -/
def P_NULL_VAL : Int := -128

/-- `P::isNull` from ProtocolManager.h: either coordinate equals
`P_NULL_VAL`. -/
def P.isNull (p : P) : Bool :=
  p.x == P_NULL_VAL || p.y == P_NULL_VAL

/-- The null point produced by `P::setNull`. -/
def P.null : P := ⟨P_NULL_VAL, P_NULL_VAL⟩

/-- Modelled from the spec: the packing bias of the point codec
(translations.h is not in this snapshot).  The spec says the bias maps
the valid axis range onto the 4-bit unsigned space. -/
def PCS_BIAS : Int := 7

/-- Modelled from the spec: `P::unpack_byte` (translations.h is not in
this snapshot).  Upper 4 bits give the biased x coordinate, lower 4 bits
the biased y coordinate.  The argument is reduced mod 256 to embed the
`uint8_t` domain. -/
def unpack_byte (b : Nat) : P :=
  ⟨Int.ofNat (b % 256 / 16) - PCS_BIAS, Int.ofNat (b % 16) - PCS_BIAS⟩

/-- Modelled from the spec: the PCS points carrying a valve, in the order
`valve2p 1 .. valve2p N_VALVES` (constants.h and translations.h are not
in this snapshot).  main.cpp shows valves sit at the odd-parity points of
the PCS grid (the even-parity points get the fixed background LEDs). -/
def valvePoints : List P :=
  (List.range 15).flatMap (fun i =>
    (List.range 15).filterMap (fun j =>
      if (i + j) % 2 == 1 then
        some ⟨Int.ofNat i - 7, Int.ofNat j - 7⟩
      else none))

/-- Number of solenoid valves (`N_VALVES`, modelled from the spec). -/
def N_VALVES : Nat := valvePoints.length

/-- Maximum number of protocol lines a program can hold
(`MAX_LINES` in src/source_mcu/src/ProtocolManager.h; main.cpp calls the
same bound `PROTOCOL_MAX_LINES`). -/
def MAX_LINES : Nat := 5000

/-- A protocol line as built in `FSM_fun_uploading__upd`: a duration in
milliseconds and the written prefix of the fixed point array.  The
firmware always terminates `points` with the null sentinel before
handing the line to the store; a stored line keeps only the points
before the first null. -/
structure Line where
  duration : Nat
  points : List P
deriving DecidableEq, Repr

/-- The program store owned by `ProtocolManager`: a program name and the
ordered list of loaded lines. -/
structure Store where
  name : String
  lines : List Line
deriving DecidableEq, Repr

/-- Modelled from the spec: `ProtocolManager::clear` resets the count to
zero and the name to empty (the method body is not in this snapshot). -/
def Store.clear (_s : Store) : Store := ⟨"", []⟩

/-- Modelled from the spec: `ProtocolManager::set_name`. -/
def Store.set_name (s : Store) (n : String) : Store := { s with name := n }

/-- Modelled from the spec: `ProtocolManager::add_line` packs the line
(walking the point array up to the first null sentinel) and appends it;
when the store already holds `MAX_LINES` lines the append is refused
(CapacityExceeded) and the store is unchanged. -/
def Store.add_line (s : Store) (l : Line) : Store :=
  if s.lines.length == MAX_LINES then s
  else { s with
         lines := s.lines ++ [⟨l.duration, l.points.takeWhile (fun p => !p.isNull)⟩] }

/-- `ProtocolManager::get_N_lines`. -/
def Store.get_N_lines (s : Store) : Nat := s.lines.length

/-- The line-parsing block of stage 2 in `FSM_fun_uploading__upd`
(main.cpp lines 351-366), for a frame of `data_len` bytes sitting in the
shared buffer `bin_buf`: the duration is `bin_buf[0] << 8 | bin_buf[1]`,
every byte from index 2 up to `data_len` decodes to one point, and the
null sentinel is appended.  `buf` models the whole `bin_buf` contents,
so indices at or beyond `data_len` read whatever the buffer last held.
Entries are reduced mod 256 to embed the `uint8_t` domain. -/
def parseLine (buf : List Nat) (data_len : Nat) : Line :=
  { duration := buf.getD 0 0 % 256 * 256 + buf.getD 1 0 % 256
    points :=
      ((List.range (data_len - 2)).map (fun i => unpack_byte (buf.getD (i + 2) 0)))
      ++ [P.null] }

/-- `atoi` as used on the promised-line-count token: an optional minus
sign followed by leading decimal digits (accumulator form). -/
def parseDigits : List Char → Nat → Nat
  | [], acc => acc
  | c :: cs, acc =>
    if c.isDigit then parseDigits cs (acc * 10 + (c.toNat - 48)) else acc

/-- `atoi` on a token string. -/
def atoiM (s : String) : Int :=
  match s.data with
  | '-' :: cs => - Int.ofNat (parseDigits cs 0)
  | cs => Int.ofNat (parseDigits cs 0)

/-- Conversion of an `int` to `uint16_t` (the type of
`promised_N_lines`): reduction mod 2^16. -/
def toUInt16 (i : Int) : Nat := (i % 65536).toNat

/-- Playback state of the `ProtocolManager` (modelled from the spec:
the method bodies are not in this snapshot).  `startPrimed` is the
distinguished state set by `prime_start`. -/
structure Playback where
  startPrimed : Bool
  pos : Nat
  tActivation : Nat
deriving DecidableEq, Repr

/-- Modelled from the spec: `ProtocolManager::prime_start` puts the
controller in the state from which the next `update` call
unconditionally activates line 0. -/
def Playback.prime_start (_pb : Playback) : Playback := ⟨true, 0, 0⟩

/-- Modelled from the spec: `ProtocolManager::update`.  Returns the new
playback state and the index of the line activated at this call, if
any: when start-primed, activate line 0 and record `now`; otherwise
advance (wrapping) once the current line's duration has elapsed. -/
def Playback.update (st : Store) (pb : Playback) (now : Nat) : Playback × Option Nat :=
  if pb.startPrimed then
    (⟨false, 0, now⟩, some 0)
  else if st.lines.length == 0 then
    (pb, none)
  else
    let dur := (st.lines.getD pb.pos ⟨0, []⟩).duration
    if dur ≤ now - pb.tActivation then
      let newPos := (pb.pos + 1) % st.lines.length
      (⟨false, newPos, now⟩, some newPos)
    else (pb, none)

/-- Upload reports sent to the host (error taxonomy of the upload
paths in `FSM_fun_uploading__upd`). -/
inductive Report
  | CapacityExceeded
  | CountMismatch
  | UploadTimeout
  | Success
deriving DecidableEq, Repr

/-- The mutable state of the uploading FSM state: `loading_stage`,
`promised_N_lines`, `loading_successful`, `loading_program`, and the
program store being filled. -/
structure UploadState where
  stage : Nat
  promised : Nat
  successful : Bool
  loading : Bool
  store : Store
deriving DecidableEq, Repr

/-- The input visible to one `FSM_fun_uploading__upd` call: the pending
ASCII command tokens in arrival order, at most one framed binary
command (buffer contents and `data_len`), and the current millisecond
timestamp. -/
structure TickInput where
  texts : List String
  frame : Option (List Nat × Nat)
  now : Nat
deriving DecidableEq, Repr

/-- Upload deadline `LOADING_TIMEOUT` (main.cpp line 372), in ms. -/
def LOADING_TIMEOUT : Nat := 4000

/-- What the control loop holds after the uploading state exits: the
host report, the finalized store, the playback state left by
`prime_start`, how many times `prime_start` was called on this exit
path, and the `loading_program` flag. -/
structure Terminal where
  report : Report
  store : Store
  pb : Playback
  primeCalls : Nat
  loading : Bool
deriving DecidableEq, Repr

/-- Result of one `FSM_fun_uploading__upd` call: either the upload
continues with a new state, or a transition out of the uploading state
happened and the exit function `FSM_fun_uploading__ext` ran. -/
inductive StepRes
  | cont (s : UploadState)
  | halted (t : Terminal)
deriving DecidableEq, Repr

/-- `FSM_fun_uploading__ext` (main.cpp lines 380-400): on an
unsuccessful load, clear the store and install the fail-safe program
(name "All valves open", one line of duration 1000 ms with every valve
active, null-terminated); in all cases call `prime_start` once. -/
def uploadExit (successful : Bool) (st : Store) : Store × Playback :=
  let st' :=
    if successful then st
    else ((st.clear).set_name "All valves open").add_line ⟨1000, valvePoints ++ [P.null]⟩
  (st', Playback.prime_start ⟨false, 0, 0⟩)

/-- A terminal transition out of the uploading state: the code sets
`loading_program = false` and calls `fsm.transitionTo(state_off)`,
which runs the exit function exactly once (modelled from the spec for
the FiniteStateMachine driver, whose source is not in this
snapshot). -/
def terminate (r : Report) (successful : Bool) (st : Store) : Terminal :=
  let e := uploadExit successful st
  ⟨r, e.1, e.2, 1, false⟩

/-- The store contents after a failed upload: exactly the fail-safe
all-valves-open program. -/
def failSafeStore : Store :=
  ⟨"All valves open",
   [⟨1000, (valvePoints ++ [P.null]).takeWhile (fun p => !p.isNull)⟩]⟩

/-- The terminal result of every failed upload path. -/
def failTerminal (r : Report) : Terminal :=
  ⟨r, failSafeStore, ⟨true, 0, 0⟩, 1, false⟩

/-- Stage 2 of `FSM_fun_uploading__upd` (main.cpp lines 313-369): with
a framed binary command available, a zero-length frame is the
end-of-program sentinel (count check, then success or count-mismatch
failure); a non-empty frame is parsed as a line and appended. -/
def doStage2 (s : UploadState) (frame : Option (List Nat × Nat)) : StepRes :=
  if s.stage == 2 then
    match frame with
    | some (buf, len) =>
      if len == 0 then
        if s.store.get_N_lines != s.promised then
          .halted (terminate .CountMismatch false s.store)
        else
          .halted (terminate .Success true s.store)
      else
        .cont { s with store := s.store.add_line (parseLine buf len) }
    | none => .cont s
  else .cont s

/-- Stage 1 of `FSM_fun_uploading__upd` (main.cpp lines 291-311): read
the promised line count; a promise above `MAX_LINES` aborts with a
capacity error before any binary frame is looked at; otherwise record
it, advance to stage 2, and fall through to the stage-2 block of the
same call. -/
def doStage1 (s : UploadState) (texts : List String) (frame : Option (List Nat × Nat)) : StepRes :=
  if s.stage == 1 then
    match texts with
    | t :: _ =>
      if MAX_LINES < toUInt16 (atoiM t) then
        .halted (terminate .CapacityExceeded false s.store)
      else
        doStage2 { s with stage := 2, promised := toUInt16 (atoiM t) } frame
    | [] => doStage2 s frame
  else doStage2 s frame

/-- Stage 0 of `FSM_fun_uploading__upd` (main.cpp lines 282-289): read
the program name, echo it, advance to stage 1, and fall through to the
later stage blocks of the same call. -/
def doStage0 (s : UploadState) (inp : TickInput) : StepRes :=
  if s.stage == 0 then
    match inp.texts with
    | t :: rest =>
      doStage1 { s with stage := 1, store := s.store.set_name t } rest inp.frame
    | [] => doStage1 s [] inp.frame
  else doStage1 s inp.texts inp.frame

/-- One full `FSM_fun_uploading__upd` call (main.cpp lines 278-378):
the three stage blocks in order, then — unless a terminal transition
already returned — the deadline check `fsm.timeInCurrentState() >
LOADING_TIMEOUT`, which forces a timeout failure. -/
def uploadUpd (t_enter : Nat) (inp : TickInput) (s : UploadState) : StepRes :=
  match doStage0 s inp with
  | .halted t => .halted t
  | .cont s' =>
    if LOADING_TIMEOUT < inp.now - t_enter then
      .halted (terminate .UploadTimeout false s'.store)
    else .cont s'

/-- `FSM_fun_uploading__ent` (main.cpp lines 270-276): set
`loading_program`, reset the stage and success flag, clear the store. -/
def uploadEnter (st : Store) : UploadState := ⟨0, 0, false, true, st.clear⟩

/-- Outcome of driving the uploading state over a list of loop
iterations. -/
inductive RunOutcome
  | ongoing (s : UploadState)
  | finished (t : Terminal)
deriving DecidableEq, Repr

/-- Drive `FSM_fun_uploading__upd` over a list of tick inputs, stopping
at the first terminal transition. -/
def runTicks (t_enter : Nat) : List TickInput → UploadState → RunOutcome
  | [], s => .ongoing s
  | inp :: rest, s =>
    match uploadUpd t_enter inp s with
    | .cont s' => runTicks t_enter rest s'
    | .halted t => .finished t

/-- A complete upload attempt: enter the uploading state over an
existing store, then process the given ticks. -/
def runUpload (t_enter : Nat) (ticks : List TickInput) (st0 : Store) : RunOutcome :=
  runTicks t_enter ticks (uploadEnter st0)

/-- A tick carrying one binary frame and nothing else; `f` is
`(bin_buf contents, data_len, now)`. -/
def frameTick (f : List Nat × Nat × Nat) : TickInput :=
  ⟨[], some (f.1, f.2.1), f.2.2⟩

/-- The stored line a frame ends up as after `add_line`. -/
def lineOf (f : List Nat × Nat × Nat) : Line :=
  ⟨(parseLine f.1 f.2.1).duration,
   (parseLine f.1 f.2.1).points.takeWhile (fun p => !p.isNull)⟩

/-- Aggregate actuation mask: the OR of the last-committed output masks
of all Centipede channels (spec section 4.5). -/
def aggregateMask (masks : List Nat) : Nat :=
  masks.foldr (fun a b => a ||| b) 0

/-- Modelled from the spec: `CentipedeManager::all_masks_are_zero`
(CentipedeManager.h is not in this snapshot): none of the
last-committed valve bits is set. -/
def all_masks_are_zero (masks : List Nat) : Bool :=
  masks.all (fun m => m == 0)

/-- The safety-gate block of `loop` (main.cpp lines 730-742): with the
override set, allow the pump; otherwise allow it exactly when not all
masks are zero. -/
def updateSafetyFlag (override : Bool) (masks : List Nat) : Bool :=
  if override then true
  else if all_masks_are_zero masks then false
  else true

/-- State of the safety-pulse output (main.cpp lines 744-755): the
static `toggler` flag and the level last driven on
`PIN_SAFETY_PULSE_OUT`. -/
structure PulseState where
  toggler : Bool
  pin : Bool
deriving DecidableEq, Repr

/-- The state after `setup` (main.cpp lines 413-415): the pin is driven
LOW and the static `toggler` starts false. -/
def pulseInit : PulseState := ⟨false, false⟩

/-- The safety-pulse block of one `loop` iteration (main.cpp lines
744-755): only while the pump is allowed to run, and only when the
half-period timer fires, flip `toggler` and drive the pin to it.
Otherwise nothing is written to the pin. -/
def pulseTick (pump_enable : Bool) (timerFires : Bool) (s : PulseState) : PulseState :=
  if pump_enable && timerFires then ⟨!s.toggler, !s.toggler⟩ else s

/-- The control-loop flags the command dispatcher can touch:
`loading_program` and `override_pump_safety`. -/
structure LoopCtl where
  loading : Bool
  override : Bool
deriving DecidableEq, Repr

/-- The command-dispatch block of `loop` (main.cpp lines 504-652),
projected onto the safety-override flag: the whole dispatcher is
guarded by `!loading_program` (and a 10 ms timer); inside it,
`override_safety` sets the override flag and `restore_safety` clears
it, while every other command leaves it untouched. -/
def processCommands (s : LoopCtl) (timerFires : Bool) (cmd : Option String) : LoopCtl :=
  if !s.loading then
    if timerFires then
      match cmd with
      | some c =>
        if c == "override_safety" then { s with override := true }
        else if c == "restore_safety" then { s with override := false }
        else s
      | none => s
    else s
  else s

/-! ## Helper lemmas -/

theorem lor_eq_zero (a b : Nat) : a ||| b = 0 ↔ a = 0 ∧ b = 0 := by
  constructor
  · intro h
    have hb : ∀ i, a.testBit i = false ∧ b.testBit i = false := by
      intro i
      have h2 := congrArg (fun n => Nat.testBit n i) h
      simpa [Nat.testBit_or] using h2
    constructor
    · exact Nat.eq_of_testBit_eq fun i => by simp [(hb i).1]
    · exact Nat.eq_of_testBit_eq fun i => by simp [(hb i).2]
  · rintro ⟨rfl, rfl⟩
    rfl

theorem all_masks_are_zero_iff (masks : List Nat) :
    all_masks_are_zero masks = true ↔ aggregateMask masks = 0 := by
  induction masks with
  | nil => simp [all_masks_are_zero, aggregateMask]
  | cons m ms ih =>
    simp only [all_masks_are_zero, List.all_cons, Bool.and_eq_true, beq_iff_eq,
               aggregateMask, List.foldr_cons] at *
    rw [lor_eq_zero]
    tauto

theorem doStage2_halted (s : UploadState) (fr : Option (List Nat × Nat)) (t : Terminal)
    (h : doStage2 s fr = .halted t) : ∃ r b st, t = terminate r b st := by
  unfold doStage2 at h
  repeat' split at h
  all_goals first
    | ((injection h with h) <;> exact ⟨_, _, _, h.symm⟩)
    | injection h

theorem doStage1_halted (s : UploadState) (texts : List String)
    (fr : Option (List Nat × Nat)) (t : Terminal)
    (h : doStage1 s texts fr = .halted t) : ∃ r b st, t = terminate r b st := by
  unfold doStage1 at h
  repeat' split at h
  all_goals first
    | exact doStage2_halted _ _ _ h
    | ((injection h with h) <;> exact ⟨_, _, _, h.symm⟩)

theorem doStage0_halted (s : UploadState) (inp : TickInput) (t : Terminal)
    (h : doStage0 s inp = .halted t) : ∃ r b st, t = terminate r b st := by
  unfold doStage0 at h
  repeat' split at h
  all_goals exact doStage1_halted _ _ _ _ h

theorem uploadUpd_halted (t_enter : Nat) (inp : TickInput) (s : UploadState) (t : Terminal)
    (h : uploadUpd t_enter inp s = .halted t) : ∃ r b st, t = terminate r b st := by
  unfold uploadUpd at h
  cases hds : doStage0 s inp with
  | cont s' =>
    rw [hds] at h
    simp only at h
    split at h
    · injection h with h
      exact ⟨_, _, _, h.symm⟩
    · injection h
  | halted t' =>
    rw [hds] at h
    simp only at h
    injection h with h
    exact h ▸ doStage0_halted _ _ _ hds

theorem runTicks_finished (t_enter : Nat) (ticks : List TickInput) (s : UploadState)
    (t : Terminal) (h : runTicks t_enter ticks s = .finished t) :
    ∃ r b st, t = terminate r b st := by
  induction ticks generalizing s with
  | nil => simp [runTicks] at h
  | cons inp rest ih =>
    unfold runTicks at h
    cases huu : uploadUpd t_enter inp s with
    | cont s' =>
      rw [huu] at h
      exact ih s' h
    | halted t' =>
      rw [huu] at h
      simp only at h
      injection h with h
      exact h ▸ uploadUpd_halted _ _ _ _ huu

theorem terminate_false (r : Report) (st : Store) :
    terminate r false st = failTerminal r := rfl

theorem terminate_loading (r : Report) (b : Bool) (st : Store) :
    (terminate r b st).loading = false := rfl

theorem terminate_primeCalls (r : Report) (b : Bool) (st : Store) :
    (terminate r b st).primeCalls = 1 := rfl

theorem terminate_pb (r : Report) (b : Bool) (st : Store) :
    (terminate r b st).pb = ⟨true, 0, 0⟩ := rfl

theorem unpack_byte_not_null (b : Nat) : (unpack_byte b).isNull = false := by
  simp [unpack_byte, P.isNull, P_NULL_VAL, PCS_BIAS]
  omega

theorem takeWhile_append_null (l : List P) (hl : ∀ p ∈ l, p.isNull = false) :
    (l ++ [P.null]).takeWhile (fun p => !p.isNull) = l := by
  induction l with
  | nil => simp [List.takeWhile, P.null, P.isNull, P_NULL_VAL]
  | cons p ps ih =>
    have hp := hl p (List.mem_cons_self p ps)
    simp only [List.cons_append, List.takeWhile_cons, hp, Bool.not_false, if_true]
    rw [ih fun q hq => hl q (List.mem_cons_of_mem p hq)]

theorem runTicks_cons_cont (t_enter : Nat) (inp : TickInput) (rest : List TickInput)
    (s s' : UploadState) (h : uploadUpd t_enter inp s = .cont s') :
    runTicks t_enter (inp :: rest) s = runTicks t_enter rest s' := by
  have hd : runTicks t_enter (inp :: rest) s
      = match uploadUpd t_enter inp s with
        | .cont s' => runTicks t_enter rest s'
        | .halted t => .finished t := rfl
  rw [hd, h]

theorem runTicks_cons_halted (t_enter : Nat) (inp : TickInput) (rest : List TickInput)
    (s : UploadState) (t : Terminal) (h : uploadUpd t_enter inp s = .halted t) :
    runTicks t_enter (inp :: rest) s = .finished t := by
  have hd : runTicks t_enter (inp :: rest) s
      = match uploadUpd t_enter inp s with
        | .cont s' => runTicks t_enter rest s'
        | .halted t => .finished t := rfl
  rw [hd, h]

/-! ## Claim theorems -/

/-- C1: every control-loop tick recomputes the pump-enable flag as
true exactly when the safety override is set or the aggregate valve
actuation mask (the OR of all last-committed valve bits) is nonzero;
with the override clear and all masks zero it is false. -/
theorem C1_pump_enable_iff (override : Bool) (masks : List Nat) :
    updateSafetyFlag override masks = (override || decide (aggregateMask masks ≠ 0)) := by
  cases override with
  | true => simp [updateSafetyFlag]
  | false =>
    simp only [updateSafetyFlag, Bool.false_or, if_false]
    by_cases h : aggregateMask masks = 0
    · have hz : all_masks_are_zero masks = true := (all_masks_are_zero_iff masks).2 h
      simp [hz, h]
    · have hz : all_masks_are_zero masks = false := by
        cases hh : all_masks_are_zero masks with
        | false => rfl
        | true => exact absurd ((all_masks_are_zero_iff masks).1 hh) h
      simp [hz, h]

/-- C2 counterexample: start from the setup state (pin driven LOW,
toggler false), run one enabled loop iteration whose half-period timer
fires (the pin goes high), then one iteration with pump-enable false.
The disabled iteration leaves the pulse state untouched, so the output
line is stuck high, not held low as the claim states. -/
theorem C2_counterexample :
    pulseTick false true (pulseTick true true pulseInit) = pulseTick true true pulseInit
    ∧ (pulseTick true true pulseInit).pin = true := by decide

/-- C2 amended: whenever pump-enable is false, the safety-pulse block
performs no write at all: the toggling stops immediately, and the
output line simply retains whatever level was last driven (it is driven
low only by `setup`, not on disable). -/
theorem C2_no_write_when_disabled (timerFires : Bool) (s : PulseState) :
    pulseTick false timerFires s = s := by
  simp [pulseTick]

/-- C4: a promised line count above `MAX_LINES`, received in stage 1
(AwaitingLineCount), terminates the upload at once with a capacity
error; no binary frame of the same tick is looked at, and the store
ends up holding only the fail-safe program installed by the exit
path. -/
theorem C4_capacity_error (t_enter : Nat) (inp : TickInput) (s : UploadState)
    (cnt : String) (rest : List String)
    (hstage : s.stage = 1) (htexts : inp.texts = cnt :: rest)
    (hN : MAX_LINES < toUInt16 (atoiM cnt)) :
    uploadUpd t_enter inp s = .halted (failTerminal .CapacityExceeded) := by
  unfold uploadUpd doStage0 doStage1
  rw [htexts, hstage]
  simp [hN, terminate_false]

/-- Witness for C4 at a concrete input: a promise of 6000 lines against
the maximum of 5000. -/
theorem C4_witness :
    uploadUpd 0 ⟨["6000"], none, 0⟩ ⟨1, 0, false, true, ⟨"nm", []⟩⟩
      = .halted (failTerminal .CapacityExceeded) :=
  C4_capacity_error 0 ⟨["6000"], none, 0⟩ ⟨1, 0, false, true, ⟨"nm", []⟩⟩
    "6000" [] rfl rfl (by decide)

/-- C10: while `loading_program` is set the whole command dispatcher is
skipped, so no text command — in particular `override_safety` and
`restore_safety` — can change the pump-safety override flag; and every
terminal upload outcome clears the `loading_program` flag again. -/
theorem C10_dispatcher_blocked_while_loading :
    (∀ (ov timerFires : Bool) (cmd : Option String),
        processCommands ⟨true, ov⟩ timerFires cmd = ⟨true, ov⟩)
    ∧ (∀ (t_enter : Nat) (ticks : List TickInput) (st0 : Store) (t : Terminal),
        runUpload t_enter ticks st0 = .finished t → t.loading = false) := by
  constructor
  · intro ov timerFires cmd
    simp [processCommands]
  · intro t_enter ticks st0 t h
    obtain ⟨r, b, st, rfl⟩ := runTicks_finished t_enter ticks (uploadEnter st0) t h
    exact terminate_loading r b st

theorem runTicks_frames (t_enter N : Nat) (frames : List (List Nat × Nat × Nat))
    (rest : List TickInput) (nm : String) (acc : List Line)
    (hf : ∀ f ∈ frames, 1 ≤ f.2.1 ∧ f.2.2 - t_enter ≤ LOADING_TIMEOUT)
    (hcap : acc.length + frames.length ≤ MAX_LINES) :
    runTicks t_enter (frames.map frameTick ++ rest) ⟨2, N, false, true, ⟨nm, acc⟩⟩
      = runTicks t_enter rest ⟨2, N, false, true, ⟨nm, acc ++ frames.map lineOf⟩⟩ := by
  induction frames generalizing acc with
  | nil => simp
  | cons f fs ih =>
    obtain ⟨buf, len, now⟩ := f
    obtain ⟨hlen0, htime0⟩ := hf ⟨buf, len, now⟩ (List.mem_cons_self _ _)
    have hlen : 1 ≤ len := hlen0
    have htime : now - t_enter ≤ LOADING_TIMEOUT := htime0
    have hstep : uploadUpd t_enter (frameTick ⟨buf, len, now⟩) ⟨2, N, false, true, ⟨nm, acc⟩⟩
        = .cont ⟨2, N, false, true, ⟨nm, acc ++ [lineOf ⟨buf, len, now⟩]⟩⟩ := by
      unfold uploadUpd doStage0 doStage1 doStage2 frameTick
      have hl0 : (len == 0) = false := by
        simp
        omega
      have hcap2 : acc.length + (fs.length + 1) ≤ MAX_LINES := by simpa using hcap
      have hcap' : (acc.length == MAX_LINES) = false := by
        simp
        omega
      have ht : ¬ LOADING_TIMEOUT < now - t_enter := Nat.not_lt.2 htime
      simp [hl0, hcap', ht, Store.add_line, lineOf]
    have hcap2 : acc.length + (fs.length + 1) ≤ MAX_LINES := by simpa using hcap
    rw [List.map_cons, List.cons_append,
        runTicks_cons_cont t_enter _ _ _ _ hstep,
        ih (acc ++ [lineOf ⟨buf, len, now⟩])
          (fun g hg => hf g (List.mem_cons_of_mem _ hg))
          (by simp; omega)]
    simp

/-- C5 counterexample: a concrete upload whose end-of-program sentinel
arrives 5000 ms after entry — past the 4000 ms deadline — yet the
upload terminates with a success report, because the stage blocks run
before the deadline check and return early.  This refutes the claim
that every upload whose elapsed time exceeds the deadline ends in a
timeout failure. -/
theorem C5_counterexample :
    LOADING_TIMEOUT < 5000 - 0
    ∧ runUpload 0
        [⟨["P"], none, 0⟩, ⟨["1"], none, 0⟩, ⟨[], some ([0, 100, 5], 3), 0⟩,
         ⟨[], some ([], 0), 5000⟩] ⟨"", []⟩
      = .finished ⟨.Success, ⟨"P", [⟨100, [⟨-7, -2⟩]⟩]⟩, ⟨true, 0, 0⟩, 1, false⟩ := by
  decide

/-- C5 amended: at every `FSM_fun_uploading__upd` call whose elapsed
time since entry exceeds the deadline, unless the stage blocks of that
same call already terminate the upload (success, capacity error or
count mismatch), the upload transitions to the failed terminal state
with a timeout report — from whichever stage is active, independent of
how many frames were received, and the store ends up holding the
fail-safe program. -/
theorem C5_timeout_forces_failure (t_enter : Nat) (inp : TickInput) (s s' : UploadState)
    (hc : doStage0 s inp = .cont s')
    (ht : LOADING_TIMEOUT < inp.now - t_enter) :
    uploadUpd t_enter inp s = .halted (failTerminal .UploadTimeout) := by
  unfold uploadUpd
  rw [hc]
  simp [ht, terminate_false]

/-- Witness for C5 at a concrete input: an idle tick at 9000 ms in
stage 2 times the upload out. -/
theorem C5_timeout_witness :
    uploadUpd 0 ⟨[], none, 9000⟩ ⟨2, 3, false, true, ⟨"x", []⟩⟩
      = .halted (failTerminal .UploadTimeout) :=
  C5_timeout_forces_failure 0 ⟨[], none, 9000⟩ ⟨2, 3, false, true, ⟨"x", []⟩⟩
    ⟨2, 3, false, true, ⟨"x", []⟩⟩ (by decide) (by decide)

/-- C8: every frame of at least two bytes received in stage 2 is parsed
with its duration taken from the first two bytes as a big-endian 16-bit
value, every further byte decoding through the point codec to exactly
one point (upper nibble x, lower nibble y), and the resulting line —
whose working buffer is terminated by the null sentinel — appended to
the store. -/
theorem C8_frame_decode (t_enter : Nat) (s : UploadState) (buf : List Nat) (len now : Nat)
    (hstage : s.stage = 2) (hlen : 2 ≤ len)
    (hcap : s.store.lines.length < MAX_LINES)
    (htime : now - t_enter ≤ LOADING_TIMEOUT) :
    uploadUpd t_enter ⟨[], some (buf, len), now⟩ s
      = .cont { s with store :=
          { s.store with lines := s.store.lines ++
             [⟨buf.getD 0 0 % 256 * 256 + buf.getD 1 0 % 256,
               (List.range (len - 2)).map (fun i => unpack_byte (buf.getD (i + 2) 0))⟩] } }
    ∧ (parseLine buf len).points
        = ((List.range (len - 2)).map (fun i => unpack_byte (buf.getD (i + 2) 0))) ++ [P.null] := by
  refine ⟨?_, rfl⟩
  unfold uploadUpd doStage0 doStage1 doStage2
  have hl0 : (len == 0) = false := by
    simp
    omega
  have hcap' : (s.store.lines.length == MAX_LINES) = false := by
    simp
    omega
  have ht : ¬ LOADING_TIMEOUT < now - t_enter := Nat.not_lt.2 htime
  simp [hstage, hl0, ht, Store.add_line, hcap', parseLine]
  rw [takeWhile_append_null]
  intro p hp
  obtain ⟨i, _, rfl⟩ := List.mem_map.1 hp
  exact unpack_byte_not_null _

/-- Witness for C8 at a concrete input: the 4-byte frame
[1, 244, 5, 255] decodes to duration 500 ms and the two points
decoded from bytes 5 and 255. -/
theorem C8_witness :
    uploadUpd 0 ⟨[], some ([1, 244, 5, 255], 4), 0⟩ ⟨2, 1, false, true, ⟨"x", []⟩⟩
      = .cont ⟨2, 1, false, true, ⟨"x", [⟨500, [⟨-7, -2⟩, ⟨8, 8⟩]⟩]⟩⟩
    ∧ (parseLine [1, 244, 5, 255] 4).points = [⟨-7, -2⟩, ⟨8, 8⟩, P.null] := by
  have h := C8_frame_decode 0 ⟨2, 1, false, true, ⟨"x", []⟩⟩ [1, 244, 5, 255] 4 0
    rfl (by decide) (by decide) (by decide)
  exact ⟨h.1.trans (by decide), h.2.trans (by decide)⟩

/-- C9: a one-byte frame received in stage 2 is not rejected: the
duration is still assembled from buffer indices 0 and 1 — index 1 lying
beyond the frame data, so it reads whatever the shared binary buffer
last held there — and a line with zero points is appended to the store.
No path in stage 2 detects a frame shorter than the two-byte duration
header as malformed. -/
theorem C9_short_frame_accepted (t_enter : Nat) (s : UploadState) (buf : List Nat) (now : Nat)
    (hstage : s.stage = 2)
    (hcap : s.store.lines.length < MAX_LINES)
    (htime : now - t_enter ≤ LOADING_TIMEOUT) :
    uploadUpd t_enter ⟨[], some (buf, 1), now⟩ s
      = .cont { s with store :=
          { s.store with lines := s.store.lines ++
             [⟨buf.getD 0 0 % 256 * 256 + buf.getD 1 0 % 256, []⟩] } } := by
  unfold uploadUpd doStage0 doStage1 doStage2
  have hcap' : (s.store.lines.length == MAX_LINES) = false := by
    simp
    omega
  have ht : ¬ LOADING_TIMEOUT < now - t_enter := Nat.not_lt.2 htime
  simp [hstage, ht, Store.add_line, hcap', parseLine, List.takeWhile, P.null, P.isNull,
        P_NULL_VAL]

/-- Witness for C9 at a concrete input: a one-byte frame [7] over a
buffer whose stale second byte is 99 yields duration 7 * 256 + 99 and an
empty point list. -/
theorem C9_witness :
    uploadUpd 0 ⟨[], some ([7, 99], 1), 0⟩ ⟨2, 1, false, true, ⟨"x", []⟩⟩
      = .cont ⟨2, 1, false, true, ⟨"x", [⟨1891, []⟩]⟩⟩ := by
  have h := C9_short_frame_accepted 0 ⟨2, 1, false, true, ⟨"x", []⟩⟩ [7, 99] 0
    rfl (by decide) (by decide)
  exact h.trans (by decide)

/-- C7: an upload that promises N lines with N at most `MAX_LINES` and
delivers, within the deadline, exactly N non-empty frames followed by
the zero-length end-of-program sentinel, reports success and leaves the
store holding exactly N lines. -/
theorem C7_successful_upload (t_enter : Nat) (nm cnt : String) (N : Nat)
    (frames : List (List Nat × Nat × Nat)) (n0 n1 : Nat) (bufE : List Nat) (nE : Nat)
    (st0 : Store)
    (hcnt : toUInt16 (atoiM cnt) = N) (hN : N ≤ MAX_LINES)
    (hlenf : frames.length = N)
    (hf : ∀ f ∈ frames, 1 ≤ f.2.1 ∧ f.2.2 - t_enter ≤ LOADING_TIMEOUT)
    (h0 : n0 - t_enter ≤ LOADING_TIMEOUT) (h1 : n1 - t_enter ≤ LOADING_TIMEOUT) :
    runUpload t_enter
      (⟨[nm], none, n0⟩ :: ⟨[cnt], none, n1⟩
        :: (frames.map frameTick ++ [⟨[], some (bufE, 0), nE⟩])) st0
      = .finished ⟨.Success, ⟨nm, frames.map lineOf⟩, ⟨true, 0, 0⟩, 1, false⟩
    ∧ (Store.mk nm (frames.map lineOf)).get_N_lines = N := by
  have hstep1 : uploadUpd t_enter ⟨[nm], none, n0⟩ (uploadEnter st0)
      = .cont ⟨1, 0, false, true, ⟨nm, []⟩⟩ := by
    unfold uploadUpd doStage0 doStage1 doStage2 uploadEnter
    simp [Store.clear, Store.set_name, Nat.not_lt.2 h0]
  have hstep2 : uploadUpd t_enter ⟨[cnt], none, n1⟩ ⟨1, 0, false, true, ⟨nm, []⟩⟩
      = .cont ⟨2, N, false, true, ⟨nm, []⟩⟩ := by
    unfold uploadUpd doStage0 doStage1 doStage2
    simp [hcnt, Nat.not_lt.2 hN, Nat.not_lt.2 h1]
  have hstep3 : uploadUpd t_enter ⟨[], some (bufE, 0), nE⟩
      ⟨2, N, false, true, ⟨nm, frames.map lineOf⟩⟩
      = .halted ⟨.Success, ⟨nm, frames.map lineOf⟩, ⟨true, 0, 0⟩, 1, false⟩ := by
    unfold uploadUpd doStage0 doStage1 doStage2
    have hn : (Store.get_N_lines ⟨nm, frames.map lineOf⟩ != N) = false := by
      simp [Store.get_N_lines, hlenf]
    simp [hn, terminate, uploadExit, Playback.prime_start]
  refine ⟨?_, by simp [Store.get_N_lines, hlenf]⟩
  unfold runUpload
  rw [runTicks_cons_cont t_enter _ _ _ _ hstep1,
      runTicks_cons_cont t_enter _ _ _ _ hstep2,
      runTicks_frames t_enter N frames [⟨[], some (bufE, 0), nE⟩] nm [] hf (by simpa using
        hlenf ▸ hN),
      List.nil_append,
      runTicks_cons_halted t_enter _ _ _ _ hstep3]

/-- Witness for C7 at a concrete input: promised count 1, one valid
frame, then the sentinel. -/
theorem C7_witness :
    runUpload 0
      [⟨["Test"], none, 0⟩, ⟨["1"], none, 0⟩, frameTick ⟨[0, 244, 5], 3, 0⟩,
       ⟨[], some ([], 0), 0⟩] ⟨"old", [⟨7, []⟩]⟩
      = .finished ⟨.Success, ⟨"Test", [⟨244, [⟨-7, -2⟩]⟩]⟩, ⟨true, 0, 0⟩, 1, false⟩
    ∧ (Store.mk "Test" [⟨244, [⟨-7, -2⟩]⟩]).get_N_lines = 1 := by
  have h := C7_successful_upload 0 "Test" "1" 1 [⟨[0, 244, 5], 3, 0⟩] 0 0 [] 0
    ⟨"old", [⟨7, []⟩]⟩ (by decide) (by decide) (by decide) (by decide) (by decide) (by decide)
  exact ⟨h.1.trans (by decide), by decide⟩

/-- C3: an upload that promises N lines (N at least 1 and within
capacity) but delivers only N-1 frames before the end-of-program
sentinel terminates with a count-mismatch report, and the store ends up
holding exactly the fail-safe program: the single all-valves-open line
of duration 1000 ms under the name "All valves open". -/
theorem C3_count_mismatch (t_enter : Nat) (nm cnt : String) (N : Nat)
    (frames : List (List Nat × Nat × Nat)) (n0 n1 : Nat) (bufE : List Nat) (nE : Nat)
    (st0 : Store)
    (hcnt : toUInt16 (atoiM cnt) = N) (hN1 : 1 ≤ N) (hN : N ≤ MAX_LINES)
    (hlenf : frames.length = N - 1)
    (hf : ∀ f ∈ frames, 1 ≤ f.2.1 ∧ f.2.2 - t_enter ≤ LOADING_TIMEOUT)
    (h0 : n0 - t_enter ≤ LOADING_TIMEOUT) (h1 : n1 - t_enter ≤ LOADING_TIMEOUT) :
    runUpload t_enter
      (⟨[nm], none, n0⟩ :: ⟨[cnt], none, n1⟩
        :: (frames.map frameTick ++ [⟨[], some (bufE, 0), nE⟩])) st0
      = .finished (failTerminal .CountMismatch)
    ∧ (failTerminal .CountMismatch).store = failSafeStore := by
  have hstep1 : uploadUpd t_enter ⟨[nm], none, n0⟩ (uploadEnter st0)
      = .cont ⟨1, 0, false, true, ⟨nm, []⟩⟩ := by
    unfold uploadUpd doStage0 doStage1 doStage2 uploadEnter
    simp [Store.clear, Store.set_name, Nat.not_lt.2 h0]
  have hstep2 : uploadUpd t_enter ⟨[cnt], none, n1⟩ ⟨1, 0, false, true, ⟨nm, []⟩⟩
      = .cont ⟨2, N, false, true, ⟨nm, []⟩⟩ := by
    unfold uploadUpd doStage0 doStage1 doStage2
    simp [hcnt, Nat.not_lt.2 hN, Nat.not_lt.2 h1]
  have hstep3 : uploadUpd t_enter ⟨[], some (bufE, 0), nE⟩
      ⟨2, N, false, true, ⟨nm, frames.map lineOf⟩⟩
      = .halted (failTerminal .CountMismatch) := by
    unfold uploadUpd doStage0 doStage1 doStage2
    have hn : (Store.get_N_lines ⟨nm, frames.map lineOf⟩ != N) = true := by
      simp [Store.get_N_lines, hlenf]
      omega
    simp [hn, terminate_false]
  refine ⟨?_, rfl⟩
  unfold runUpload
  rw [runTicks_cons_cont t_enter _ _ _ _ hstep1,
      runTicks_cons_cont t_enter _ _ _ _ hstep2,
      runTicks_frames t_enter N frames [⟨[], some (bufE, 0), nE⟩] nm [] hf (by
        simp [hlenf]
        omega),
      List.nil_append,
      runTicks_cons_halted t_enter _ _ _ _ hstep3]

/-- Witness for C3 at a concrete input: promised count 1 with zero
frames delivered before the sentinel. -/
theorem C3_witness :
    runUpload 0
      [⟨["Test"], none, 0⟩, ⟨["1"], none, 0⟩, ⟨[], some ([], 0), 0⟩] ⟨"old", []⟩
      = .finished (failTerminal .CountMismatch)
    ∧ (failTerminal .CountMismatch).store = failSafeStore := by
  have h := C3_count_mismatch 0 "Test" "1" 1 [] 0 0 [] 0 ⟨"old", []⟩
    (by decide) (by decide) (by decide) (by decide) (by decide) (by decide) (by decide)
  exact ⟨h.1, h.2⟩

/-- C6: every terminated upload, successful or failed for any reason,
has run the exit path with exactly one `prime_start` call, leaving the
playback controller start-primed, so that the next `update` call
activates line 0 whatever the current time is. -/
theorem C6_prime_start_once (t_enter : Nat) (ticks : List TickInput) (st0 : Store)
    (t : Terminal) (h : runUpload t_enter ticks st0 = .finished t) :
    t.primeCalls = 1 ∧ t.pb.startPrimed = true
    ∧ ∀ now, (Playback.update t.store t.pb now).2 = some 0 := by
  obtain ⟨r, b, st, rfl⟩ := runTicks_finished t_enter ticks (uploadEnter st0) t h
  refine ⟨terminate_primeCalls r b st, ?_, ?_⟩
  · rw [terminate_pb]
  · intro now
    rw [terminate_pb]
    simp [Playback.update]

/-- Witness for C6 at a concrete input: a timed-out upload ends with
one `prime_start` call and a first `update` (here at time 123) that
activates line 0. -/
theorem C6_witness :
    (failTerminal .UploadTimeout).primeCalls = 1
    ∧ (failTerminal .UploadTimeout).pb.startPrimed = true
    ∧ (Playback.update (failTerminal .UploadTimeout).store
        (failTerminal .UploadTimeout).pb 123).2 = some 0 := by
  have h := C6_prime_start_once 0 [⟨[], none, 9999⟩] ⟨"", []⟩
    (failTerminal .UploadTimeout) (by decide)
  exact ⟨h.1, h.2.1, h.2.2 123⟩

/-- Witness for C10 at concrete inputs: an `override_safety` command
arriving during an upload leaves the flags unchanged, and a concrete
timed-out upload ends with `loading_program` cleared. -/
theorem C10_witness :
    processCommands ⟨true, false⟩ true (some "override_safety") = ⟨true, false⟩
    ∧ (failTerminal .UploadTimeout).loading = false :=
  ⟨C10_dispatcher_blocked_while_loading.1 false true (some "override_safety"),
   C10_dispatcher_blocked_while_loading.2 0 [⟨[], none, 9999⟩] ⟨"", []⟩
     (failTerminal .UploadTimeout) (by decide)⟩

end JettingGrid
